import Mathlib

/-!
Verification of the interpretation/acquisition layer of the crypto dashboard
repository (src/static/js/dashboard.js).  The JavaScript classes
`CryptoDashboard`, `MobileCryptoApp` and `CryptoNewsApp` are shallowly embedded
as pure Lean functions over explicit inputs; `fetch` results are modelled as an
explicit success/failure datatype, DOM reads become function arguments, and
`localStorage`/timer state becomes explicit state records.  JavaScript numbers
are modelled as rationals (the functions involved only pass values through and
compare them, so no floating-point rounding is observable in the claims).
-/

namespace JsStr

/-- Model of JavaScript `String.prototype.includes` on character lists:
`containsList sub l` is true iff `sub` occurs as a contiguous substring of
`l` (the empty string occurs in every string, as in JS). -/
def containsList (sub : List Char) : List Char → Bool
  | [] => sub.isEmpty
  | c :: rest => sub.isPrefixOf (c :: rest) || containsList sub rest

/-- Model of JavaScript `text.includes(sub)` on `String`. -/
def jsIncludes (text sub : String) : Bool :=
  containsList sub.data text.data

/-- Number of positions of `l` at which the word `sub` occurs as a substring
(used only to state the spec's occurrence-counting reading of sentiment
scoring; the code itself never counts occurrences). -/
def countOcc (sub : List Char) : List Char → Nat
  | [] => if sub.isPrefixOf ([] : List Char) then 1 else 0
  | c :: rest => (if sub.isPrefixOf (c :: rest) then 1 else 0) + countOcc sub rest

/-- Model of JavaScript `String.prototype.toLowerCase` (ASCII case folding;
the Japanese keywords used by the code are unaffected by case folding in both
JS and Lean). -/
def jsToLower (s : String) : String :=
  String.mk (s.data.map Char.toLower)

/-- Split of a character list at every occurrence of the separator character,
keeping empty pieces, as JavaScript `String.prototype.split` does with a
single-character separator ("".split(sep) is [""]). -/
def jsSplitList (sep : Char) : List Char → List (List Char)
  | [] => [[]]
  | c :: rest =>
    if c = sep then [] :: jsSplitList sep rest
    else
      match jsSplitList sep rest with
      | [] => [[c]]
      | p :: ps => (c :: p) :: ps

/-- Model of JavaScript `s.split(sep)` for a one-character separator. -/
def jsSplit (s : String) (sep : Char) : List String :=
  (jsSplitList sep s.data).map String.mk

/-- Model of JavaScript `s.startsWith(p)`. -/
def jsStartsWith (s p : String) : Bool :=
  p.data.isPrefixOf s.data

/-- Model of JavaScript `s.trim()`: strip leading and trailing whitespace. -/
def jsTrim (s : String) : String :=
  String.mk (((s.data.dropWhile Char.isWhitespace).reverse.dropWhile
    Char.isWhitespace).reverse)

end JsStr

namespace CryptoDashboard

open JsStr

/-- One extracted metric as pushed by `parseAnalysisMetrics`
(`{label, value, class}`; the JS property `class` is rendered as `cls`). -/
structure Metric where
  label : String
  value : String
  cls : String
  deriving DecidableEq, Repr

/-- Character class `[0-9,]` of the price regex. -/
def isDigitComma (c : Char) : Bool :=
  c.isDigit || c == ','

/-- Greedy match of `([0-9,]+\.?[0-9]*)` at the start of `cs` (the part of the
price regex after the `$`), returning the captured group.  For this pattern
greedy matching needs no backtracking: the class `[0-9,]` excludes `.`, the
tail is optional, and `[0-9]*` may be empty. -/
def priceMunch (cs : List Char) : Option (List Char) :=
  if (cs.takeWhile isDigitComma).isEmpty then none
  else
    match cs.dropWhile isDigitComma with
    | '.' :: r2 => some (cs.takeWhile isDigitComma ++ '.' :: r2.takeWhile Char.isDigit)
    | _ => some (cs.takeWhile isDigitComma)

/-- Leftmost match of the JS regex `/\$([0-9,]+\.?[0-9]*)/` over `cs`,
returning the captured group (the part after the `$`), as used by
`analysisText.match(...)` in `parseAnalysisMetrics`.  On failure at a `$`
the scan resumes one character later, exactly as the JS engine does. -/
def priceFirstMatch : List Char → Option (List Char)
  | [] => none
  | c :: rest =>
    if c = '$' then
      match priceMunch rest with
      | some g => some g
      | none => priceFirstMatch rest
    else priceFirstMatch rest

/-- Match of the body `[0-9]+\.?[0-9]*` of the change regex at the start of
`cs`, requiring a literal `%` immediately after the match; returns the body.
A shorter take of `[0-9]+` cannot rescue a failed maximal take (the next
character would be a digit, never `%` or `.`), and the `%` can only follow
the maximal digit run after the optional dot, so this munch is equivalent to
the backtracking JS engine on this pattern. -/
def changeMunch (cs : List Char) : Option (List Char) :=
  if (cs.takeWhile Char.isDigit).isEmpty then none
  else
    match cs.dropWhile Char.isDigit with
    | '%' :: _ => some (cs.takeWhile Char.isDigit)
    | '.' :: r2 =>
      (match r2.dropWhile Char.isDigit with
       | '%' :: _ => some (cs.takeWhile Char.isDigit ++ '.' :: r2.takeWhile Char.isDigit)
       | _ => none)
    | _ => none

/-- Leftmost match of the JS regex `/([+-]?[0-9]+\.?[0-9]*)%/`, returning the
captured group (sign included, `%` excluded), as used on the analysis text. -/
def changeFirstMatch : List Char → Option (List Char)
  | [] => none
  | c :: rest =>
    if c = '+' || c = '-' then
      match changeMunch rest with
      | some g => some (c :: g)
      | none => changeFirstMatch rest
    else
      match changeMunch (c :: rest) with
      | some g => some g
      | none => changeFirstMatch rest

/-- Value of a digit list read in base 10. -/
def digitsToNat (ds : List Char) : Nat :=
  ds.foldl (fun a c => a * 10 + (c.toNat - 48)) 0

/-- Model of JavaScript `parseFloat` restricted to the strings captured by the
change regex (`[+-]?[0-9]+\.?[0-9]*`), as an exact rational. -/
def jsParseFloat (cs : List Char) : ℚ :=
  let core : List Char → ℚ := fun l =>
    let d1 := l.takeWhile Char.isDigit
    match l.dropWhile Char.isDigit with
    | '.' :: d2 =>
      (digitsToNat d1 : ℚ) + (digitsToNat (d2.takeWhile Char.isDigit) : ℚ) /
        ((10 : ℚ) ^ (d2.takeWhile Char.isDigit).length)
    | _ => (digitsToNat d1 : ℚ)
  match cs with
  | '+' :: r => core r
  | '-' :: r => - core r
  | r => core r

/-- Two-digit zero padding of a remainder below 100. -/
def pad2 (n : Nat) : String :=
  if n < 10 then "0" ++ toString n else toString n

/-- Model of JavaScript `Number.prototype.toFixed(2)`: round to two decimals,
ties away from zero (the sign is split off first, as in the ECMA algorithm).
Binary floating-point representation quirks of `toFixed` are abstracted away;
no claim depends on this value. -/
def toFixed2 (q : ℚ) : String :=
  let sign : String := if q < 0 then "-" else ""
  let m : ℤ := ⌊|q| * 100 + 1 / 2⌋
  let n : Nat := m.toNat
  sign ++ toString (n / 100) ++ "." ++ pad2 (n % 100)

/-- Embedding of `CryptoDashboard.parseAnalysisMetrics` (dashboard.js
lines 478-546): price metric from the first `/\$([0-9,]+\.?[0-9]*)/` match,
change metric from the first `/([+-]?[0-9]+\.?[0-9]*)%/` match, then exactly
one sentiment metric (POSITIVE/ポジティブ scan, then NEGATIVE/ネガティブ,
default neutral) and exactly one recommendation metric (BUY/買い, then
SELL/売り, default HOLD). -/
def parseAnalysisMetrics (analysisText : String) : List Metric :=
  (match priceFirstMatch analysisText.data with
   | some g => [⟨"現在価格", "$" ++ String.mk g, ""⟩]
   | none => []) ++
  (match changeFirstMatch analysisText.data with
   | some g =>
     let change := jsParseFloat g
     [⟨"24h変動", toFixed2 change ++ "%",
       if 0 ≤ change then "price-up" else "price-down"⟩]
   | none => []) ++
  [if jsIncludes analysisText "POSITIVE" || jsIncludes analysisText "ポジティブ" then
     ⟨"センチメント", "ポジティブ", "sentiment-positive"⟩
   else if jsIncludes analysisText "NEGATIVE" || jsIncludes analysisText "ネガティブ" then
     ⟨"センチメント", "ネガティブ", "sentiment-negative"⟩
   else
     ⟨"センチメント", "ニュートラル", "sentiment-neutral"⟩] ++
  [if jsIncludes analysisText "BUY" || jsIncludes analysisText "買い" then
     ⟨"推奨", "BUY", "sentiment-positive"⟩
   else if jsIncludes analysisText "SELL" || jsIncludes analysisText "売り" then
     ⟨"推奨", "SELL", "sentiment-negative"⟩
   else
     ⟨"推奨", "HOLD", "sentiment-neutral"⟩]

/-- One ad-hoc metric pushed by `parseAnalysisSections`
(`{label, value}`, no `class` field). -/
structure SectionMetric where
  label : String
  value : String
  deriving DecidableEq, Repr

/-- One section produced by `parseAnalysisSections`
(`{title, content, metrics}`). -/
structure AnalysisSection where
  title : String
  content : String
  metrics : List SectionMetric
  deriving DecidableEq, Repr

/-- Model of `line.replace(/^##\s*/, '')` on a line already known to start
with `##`: drop the two marker characters and the following whitespace run. -/
def stripHeading (l : String) : String :=
  String.mk ((l.data.drop 2).dropWhile Char.isWhitespace)

/-- The `line.includes('$') && line.includes(':')` test that turns a section
line into an ad-hoc metric. -/
def isMetricLine (l : String) : Bool :=
  jsIncludes l "$" && jsIncludes l ":"

/-- The `const [label, value] = line.split(':')` destructuring: the label is
the (trimmed) text before the first `:` and the value the (trimmed) text
between the first and the second `:` (or up to the end when the line has a
single `:`); any third and later segments are discarded. -/
def metricOfLine (l : String) : SectionMetric :=
  ⟨jsTrim ((jsSplit l ':').headD ""), jsTrim ((jsSplit l ':').getD 1 "")⟩

/-- Concatenation of a list of string fragments (used to state the body of a
section declaratively, as the line-break-joined non-metric lines). -/
def joinFrags : List String → String
  | [] => ""
  | a :: as => a ++ joinFrags as

/-- One iteration of the `for (const line of lines)` loop of
`parseAnalysisSections` (dashboard.js lines 654-676): a `##` line closes the
current section and opens a new one; inside an open section a `$`-and-`:`
line is captured as a metric and every other line is appended to the content
followed by `<br>`; lines before any heading are ignored. -/
def processLine (st : List AnalysisSection × Option AnalysisSection)
    (line : String) : List AnalysisSection × Option AnalysisSection :=
  if jsStartsWith line "##" then
    (st.1 ++ st.2.toList, some ⟨stripHeading line, "", []⟩)
  else
    match st.2 with
    | none => st
    | some sec =>
      if isMetricLine line then
        (st.1, some ⟨sec.title, sec.content, sec.metrics ++ [metricOfLine line]⟩)
      else
        (st.1, some ⟨sec.title, sec.content ++ line ++ "<br>", sec.metrics⟩)

/-- The tail of `parseAnalysisSections`: push the still-open section and
substitute the synthetic fallback section when nothing was emitted.  The
fallback title is `分析結果` ("Analysis Result") and its content is the whole
text with each newline rendered as `<br>`. -/
def finalizeSecs (lines : List String)
    (st : List AnalysisSection × Option AnalysisSection) : List AnalysisSection :=
  if (st.1 ++ st.2.toList).isEmpty then
    [⟨"分析結果", String.intercalate "<br>" lines, []⟩]
  else st.1 ++ st.2.toList

/-- `CryptoDashboard.parseAnalysisSections` on an already-split line list. -/
def parseSectionsLines (lines : List String) : List AnalysisSection :=
  finalizeSecs lines (lines.foldl processLine ([], none))

/-- Embedding of `CryptoDashboard.parseAnalysisSections` (dashboard.js lines
649-687): split on newlines, run the line loop, finalize. -/
def parseAnalysisSections (text : String) : List AnalysisSection :=
  parseSectionsLines (jsSplit text '\n')

/-- Spec-modelled value of a "label: value" line as §4.2 words it: the
trimmed text right of the (first) separator, the remaining separators kept. -/
def specMetricValue (l : String) : String :=
  jsTrim (String.intercalate ":" ((jsSplit l ':').drop 1))

/-- State of the dashboard's periodic-refresh machinery: the configured
`this.updateInterval` and the intervals (in ms) of all `setInterval` timers
currently active.  The code never stores the ids returned by `setInterval`
in `startRealTimeUpdates`, so no operation can clear these timers. -/
structure SchedState where
  updateInterval : Nat
  timers : List Nat
  deriving DecidableEq, Repr

/-- Embedding of `CryptoDashboard.startRealTimeUpdates` (dashboard.js lines
689-699): registers one market timer at `updateInterval` ms and one news
timer at `updateInterval * 2` ms, discarding the timer ids. -/
def startRealTimeUpdates (st : SchedState) : SchedState :=
  { st with timers := st.timers ++ [st.updateInterval, st.updateInterval * 2] }

/-- Embedding of the scheduling part of `CryptoDashboard.saveSettings`
(dashboard.js lines 744-762): set `updateInterval` to the chosen frequency in
seconds times 1000, then call `startRealTimeUpdates` again.  The previously
registered timers are neither cleared nor recorded. -/
def saveSettings (updateFreqSec : Nat) (st : SchedState) : SchedState :=
  startRealTimeUpdates { st with updateInterval := updateFreqSec * 1000 }

end CryptoDashboard

namespace MobileCryptoApp

open JsStr

/-- Outcome of a JavaScript `await fetch(...)` (plus `.json()`):
either the awaited promise rejects (network/transport failure, modelled as
`throwTransport`) or a response arrives with its `ok` flag and parsed body. -/
inductive JsResult (α : Type) where
  | throwTransport
  | response (ok : Bool) (body : α)
  deriving DecidableEq, Repr

/-- Parsed body shape of the internal endpoint
`GET /api/crypto-price/{id}` (`{price_usd, price_change_24h}`, each field
possibly absent). -/
structure PriceData where
  price_usd : Option ℚ
  price_change_24h : Option ℚ
  deriving DecidableEq, Repr

/-- One entry of the CoinGecko fallback body (`{usd, usd_24h_change}`). -/
structure CGEntry where
  usd : Option ℚ
  usd_24h_change : Option ℚ
  deriving DecidableEq, Repr

/-- The CoinGecko fallback body `{ [id]: {usd, usd_24h_change, ...} }`,
modelled as an association list. -/
def CGMap : Type := List (String × CGEntry)

/-- JavaScript property lookup `data[cryptoId]` on the fallback body
(`undefined`, i.e. `none`, when the key is absent). -/
def jsLookup (m : CGMap) (k : String) : Option CGEntry :=
  ((m : List (String × CGEntry)).find? (fun e => e.1 == k)).map (fun e => e.2)

/-- Embedding of `MobileCryptoApp.fetchCryptoPrice` (dashboard.js lines
986-1014).  The primary tier is returned verbatim when its response is ok;
on a non-ok primary response or a primary transport failure the CoinGecko
fallback is consulted and its shape normalized into
`{price_usd, price_change_24h}` via optional chaining
(`data[cryptoId]?.usd`, `data[cryptoId]?.usd_24h_change`); if the fallback
also fails the function returns `null` (`none`) instead of throwing. -/
def fetchCryptoPrice (primary : JsResult PriceData) (fallback : JsResult CGMap)
    (cryptoId : String) : Option PriceData :=
  match primary with
  | .response true body => some body
  | _ =>
    match fallback with
    | .response true data =>
      some ⟨(jsLookup data cryptoId).bind CGEntry.usd,
            (jsLookup data cryptoId).bind CGEntry.usd_24h_change⟩
    | _ => none

/-- The two provider tiers of the price fetch. -/
inductive Endpoint where
  | primaryEp
  | fallbackEp
  deriving DecidableEq, Repr

/-- Whether a fetch outcome is a success (`response.ok`). -/
def isOk {α : Type} : JsResult α → Bool
  | .response true _ => true
  | _ => false

/-- The endpoints `fetchCryptoPrice` awaits, in order: the primary endpoint
is always attempted first, and the fallback exactly when the primary result
is not an ok response (the `return` inside the first `try` is reached only
on `response.ok`). -/
def fetchAttempts (primary : JsResult PriceData) : List Endpoint :=
  match primary with
  | .response true _ => [Endpoint.primaryEp]
  | _ => [Endpoint.primaryEp, Endpoint.fallbackEp]

/-- Result of the `saveAlert` handler: the validation toast (the alert is
rejected) or a successful save. -/
inductive SaveResult where
  | validationError
  | saved
  deriving DecidableEq, Repr

/-- One stored alert object as built by `saveAlert`
(`{id, crypto, condition, price, created, active}`; `id` is `Date.now()` and
`created` the same clock reading, both modelled by the `now` argument). -/
structure MobileAlert where
  id : Nat
  crypto : String
  condition : String
  price : ℚ
  created : Nat
  active : Bool
  deriving DecidableEq, Repr

/-- Embedding of `MobileCryptoApp.saveAlert` (dashboard.js lines 1254-1282).
Inputs: the two select values, the result of `parseFloat` on the price field
(`none` models `NaN`), and the current `this.alerts` list.  The guard
`if (!crypto || !condition || !price)` rejects an empty symbol, an empty
condition, and a price that is `NaN` or `0` (JavaScript falsiness); any other
number — including a negative one — passes, and the new alert is pushed and
persisted. -/
def saveAlert (now : Nat) (crypto condition : String) (price : Option ℚ)
    (alerts : List MobileAlert) : SaveResult × List MobileAlert :=
  match price with
  | none => (SaveResult.validationError, alerts)
  | some q =>
    if crypto == "" || condition == "" || q == 0 then
      (SaveResult.validationError, alerts)
    else
      (SaveResult.saved, alerts ++ [⟨now, crypto, condition, q, now, true⟩])

end MobileCryptoApp

namespace CryptoNewsApp

open JsStr

/-- The ordered topic keyword sets of `categorizeNews` with the category
each set selects, in the code's priority order. -/
def categoryRules : List (List String × String) :=
  [(["bitcoin", "btc"], "bitcoin"),
   (["ethereum", "eth"], "ethereum"),
   (["defi", "decentralized"], "defi"),
   (["regulation", "regulatory", "規制"], "regulation"),
   (["blockchain", "technology", "tech"], "technology")]

/-- Embedding of `CryptoNewsApp.categorizeNews` (dashboard.js lines
1618-1628): lower-case the concatenated title and summary, then test the
topic keyword sets in the fixed order bitcoin, ethereum, defi, regulation,
technology, returning `general` when nothing matches. -/
def categorizeNews (title summary : String) : String :=
  if jsIncludes (jsToLower (title ++ " " ++ summary)) "bitcoin" ||
      jsIncludes (jsToLower (title ++ " " ++ summary)) "btc" then "bitcoin"
  else if jsIncludes (jsToLower (title ++ " " ++ summary)) "ethereum" ||
      jsIncludes (jsToLower (title ++ " " ++ summary)) "eth" then "ethereum"
  else if jsIncludes (jsToLower (title ++ " " ++ summary)) "defi" ||
      jsIncludes (jsToLower (title ++ " " ++ summary)) "decentralized" then "defi"
  else if jsIncludes (jsToLower (title ++ " " ++ summary)) "regulation" ||
      jsIncludes (jsToLower (title ++ " " ++ summary)) "regulatory" ||
      jsIncludes (jsToLower (title ++ " " ++ summary)) "規制" then "regulation"
  else if jsIncludes (jsToLower (title ++ " " ++ summary)) "blockchain" ||
      jsIncludes (jsToLower (title ++ " " ++ summary)) "technology" ||
      jsIncludes (jsToLower (title ++ " " ++ summary)) "tech" then "technology"
  else "general"

/-- The bilingual positive keyword list of `analyzeSentiment`, verbatim. -/
def positiveWords : List String :=
  ["surge", "rally", "bullish", "gains", "rise", "positive", "breakthrough",
   "adoption", "growth", "boom", "soar", "spike", "moon", "bull", "up",
   "high", "record",
   "上昇", "急騰", "強気", "利益", "増加", "前向き", "突破", "採用", "成長",
   "好調", "買い"]

/-- The bilingual negative keyword list of `analyzeSentiment`, verbatim. -/
def negativeWords : List String :=
  ["crash", "dump", "bearish", "decline", "fall", "negative", "concern",
   "regulation", "drop", "plunge", "bear", "down", "low", "sell", "fear",
   "risk",
   "暴落", "ダンプ", "弱気", "下落", "落下", "否定的", "懸念", "規制",
   "低下", "急落", "熊", "下", "低い", "売り", "恐怖", "リスク", "不安"]

/-- Embedding of `CryptoNewsApp.analyzeSentiment` (dashboard.js lines
1630-1652): `posCount`/`negCount` are the lengths of
`positiveWords.filter(word => text.includes(word))` and its negative
counterpart — i.e. the number of *listed keywords that occur*, each counted
at most once regardless of how often it repeats in the text. -/
def analyzeSentiment (title summary : String) : String :=
  if ((positiveWords.filter (fun w =>
        jsIncludes (jsToLower (title ++ " " ++ summary)) w)).length >
      (negativeWords.filter (fun w =>
        jsIncludes (jsToLower (title ++ " " ++ summary)) w)).length) then
    "positive"
  else if ((negativeWords.filter (fun w =>
        jsIncludes (jsToLower (title ++ " " ++ summary)) w)).length >
      (positiveWords.filter (fun w =>
        jsIncludes (jsToLower (title ++ " " ++ summary)) w)).length) then
    "negative"
  else "neutral"

/-- Number of keywords of `ws` that occur at least once in `text`
(presence counting: each keyword contributes 0 or 1). -/
def presenceCount (ws : List String) (text : String) : Nat :=
  ws.countP (fun w => decide (0 < countOcc w.data text.data))

/-- Spec-modelled occurrence-counting classifier, following the claim's
words "counting occurrences of words from the … keyword list": every
occurrence of every listed word contributes to its list's score. -/
def occSentiment (title summary : String) : String :=
  if ((positiveWords.map (fun w =>
        countOcc w.data (jsToLower (title ++ " " ++ summary)).data)).sum >
      (negativeWords.map (fun w =>
        countOcc w.data (jsToLower (title ++ " " ++ summary)).data)).sum) then
    "positive"
  else if ((negativeWords.map (fun w =>
        countOcc w.data (jsToLower (title ++ " " ++ summary)).data)).sum >
      (positiveWords.map (fun w =>
        countOcc w.data (jsToLower (title ++ " " ++ summary)).data)).sum) then
    "negative"
  else "neutral"

end CryptoNewsApp

namespace JsStr

theorem containsList_iff_countOcc_pos (sub l : List Char) :
    containsList sub l = true ↔ 0 < countOcc sub l := by
  induction l with
  | nil =>
    simp only [containsList, countOcc, List.isEmpty_iff, List.isPrefixOf]
    cases sub <;> simp [List.isPrefixOf]
  | cons c rest ih =>
    simp only [containsList, countOcc, Bool.or_eq_true]
    cases h : sub.isPrefixOf (c :: rest) <;> simp [h, ih]

end JsStr

namespace CryptoDashboard

open JsStr

theorem priceMunch_eq_none {l : List Char} :
    priceMunch l = none ↔ (l.takeWhile isDigitComma).isEmpty = true := by
  unfold priceMunch
  split
  · simp_all
  · split <;> simp_all

theorem priceMunch_some_decomp {l g : List Char} (h : priceMunch l = some g) :
    ∃ suf, l = g ++ suf := by
  unfold priceMunch at h
  split at h
  · exact absurd h (by simp)
  · split at h
    next r2 heq =>
      injection h with h'
      refine ⟨r2.dropWhile Char.isDigit, ?_⟩
      rw [← h']
      conv_lhs => rw [← @List.takeWhile_append_dropWhile _ isDigitComma l]
      rw [heq]
      simp [List.takeWhile_append_dropWhile]
    next heq =>
      injection h with h'
      refine ⟨l.dropWhile isDigitComma, ?_⟩
      rw [← h']
      exact (@List.takeWhile_append_dropWhile _ isDigitComma l).symm

theorem priceMunch_none_of_append {pre : List Char} (x : List Char)
    (h : priceMunch (pre ++ x) = none) : priceMunch pre = none := by
  have h1 : ((pre ++ x).takeWhile isDigitComma).isEmpty = true :=
    priceMunch_eq_none.mp h
  cases pre with
  | nil => simp [priceMunch]
  | cons c p =>
    rw [List.cons_append, List.takeWhile_cons] at h1
    apply priceMunch_eq_none.mpr
    rw [List.takeWhile_cons]
    split at h1
    · simp at h1
    · simp_all

/-- Every successful `priceFirstMatch` result is a substring of the scanned
text: the text splits as `pre ++ '$' :: (group ++ suf)` where no earlier
position admits a match (`priceFirstMatch pre = none`). -/
theorem priceFirstMatch_some_decomp {cs g : List Char}
    (h : priceFirstMatch cs = some g) :
    ∃ pre suf, cs = pre ++ '$' :: (g ++ suf) ∧ priceFirstMatch pre = none := by
  induction cs with
  | nil => simp [priceFirstMatch] at h
  | cons c rest ih =>
    by_cases hc : c = '$'
    · subst hc
      rw [priceFirstMatch, if_pos rfl] at h
      cases hm : priceMunch rest with
      | some g0 =>
        rw [hm] at h
        injection h with h'
        subst h'
        obtain ⟨suf, hsuf⟩ := priceMunch_some_decomp hm
        exact ⟨[], suf, by simp [hsuf], by simp [priceFirstMatch]⟩
      | none =>
        rw [hm] at h
        obtain ⟨pre, suf, hsplit, hnone⟩ := ih h
        refine ⟨'$' :: pre, suf, by simp [hsplit], ?_⟩
        rw [priceFirstMatch, if_pos rfl]
        have hmp : priceMunch pre = none := by
          apply priceMunch_none_of_append ('$' :: (g ++ suf))
          rw [← hsplit]; exact hm
        rw [hmp]
        exact hnone
    · rw [priceFirstMatch, if_neg hc] at h
      obtain ⟨pre, suf, hsplit, hnone⟩ := ih h
      exact ⟨c :: pre, suf, by simp [hsplit],
        by rw [priceFirstMatch, if_neg hc]; exact hnone⟩

/-- C2 (amended): whenever the price regex matches, the emitted current-price
metric is the first metric, its value is `$` followed by the captured group,
and that group is literally a substring of the input occurring right after the
leftmost `$` at which the pattern `[0-9,]+\.?[0-9]*` matches (formatting
preserved).  The character class `[0-9,]` admits commas without any digit, so
the match need not be a well-formed decimal number. -/
theorem price_metric_leftmost (t : String) (g : List Char)
    (h : priceFirstMatch t.data = some g) :
    (∃ pre suf, t.data = pre ++ '$' :: (g ++ suf) ∧ priceFirstMatch pre = none) ∧
    (parseAnalysisMetrics t).head? = some ⟨"現在価格", "$" ++ String.mk g, ""⟩ := by
  refine ⟨priceFirstMatch_some_decomp h, ?_⟩
  simp [parseAnalysisMetrics, h]

/-- Witness for `price_metric_leftmost` at the spec's own example
`"BTC is at $45,230.50 today"`, whose price metric value is `"$45,230.50"`. -/
theorem price_metric_leftmost_witness :
    priceFirstMatch "BTC is at $45,230.50 today".data = some "45,230.50".data ∧
    (parseAnalysisMetrics "BTC is at $45,230.50 today").head? =
      some ⟨"現在価格", "$45,230.50", ""⟩ := by
  refine ⟨by decide, ?_⟩
  have h := (price_metric_leftmost "BTC is at $45,230.50 today" "45,230.50".data
    (by decide)).2
  have hs : ("$" ++ String.mk "45,230.50".data) = "$45,230.50" := by decide
  rw [hs] at h
  exact h

/-- C2 (counterexample): on `"$, BTC is at $45"` the text contains the
`$`-prefixed decimal number `"$45"`, yet the extracted price metric value is
`"$,"` — the first regex match — not the first `$`-prefixed decimal number:
the character class `[0-9,]+` of the code's regex also matches a bare comma. -/
theorem price_metric_counterexample :
    (parseAnalysisMetrics "$, BTC is at $45").head? =
      some ⟨"現在価格", "$,", ""⟩ ∧
    jsIncludes "$, BTC is at $45" "$45" = true ∧
    ("$," : String) ≠ "$45" := by
  refine ⟨?_, by decide, by decide⟩
  decide

/-- C3: the metric list always carries exactly one sentiment metric (keyword
scan positive → negative → default neutral) and exactly one recommendation
metric (scan buy → sell → default hold), in the fixed order price, change,
sentiment, recommendation, with price and change present exactly when their
regexes match. -/
theorem parseAnalysisMetrics_shape (t : String) :
    ((parseAnalysisMetrics t).map (fun m => m.label) =
      (match priceFirstMatch t.data with
       | some _ => ["現在価格"]
       | none => []) ++
      (match changeFirstMatch t.data with
       | some _ => ["24h変動"]
       | none => []) ++
      ["センチメント", "推奨"]) ∧
    ((parseAnalysisMetrics t).filter (fun m => m.label == "センチメント") =
      [if jsIncludes t "POSITIVE" || jsIncludes t "ポジティブ" then
         ⟨"センチメント", "ポジティブ", "sentiment-positive"⟩
       else if jsIncludes t "NEGATIVE" || jsIncludes t "ネガティブ" then
         ⟨"センチメント", "ネガティブ", "sentiment-negative"⟩
       else ⟨"センチメント", "ニュートラル", "sentiment-neutral"⟩]) ∧
    ((parseAnalysisMetrics t).filter (fun m => m.label == "推奨") =
      [if jsIncludes t "BUY" || jsIncludes t "買い" then
         ⟨"推奨", "BUY", "sentiment-positive"⟩
       else if jsIncludes t "SELL" || jsIncludes t "売り" then
         ⟨"推奨", "SELL", "sentiment-negative"⟩
       else ⟨"推奨", "HOLD", "sentiment-neutral"⟩]) := by
  refine ⟨?_, ?_, ?_⟩ <;>
    cases hp : priceFirstMatch t.data <;>
    cases hc : changeFirstMatch t.data <;>
    cases h1 : jsIncludes t "POSITIVE" || jsIncludes t "ポジティブ" <;>
    cases h2 : jsIncludes t "NEGATIVE" || jsIncludes t "ネガティブ" <;>
    cases h3 : jsIncludes t "BUY" || jsIncludes t "買い" <;>
    cases h4 : jsIncludes t "SELL" || jsIncludes t "売り" <;>
      simp [parseAnalysisMetrics, hp, hc, h1, h2, h3, h4, List.filter]

theorem processLine_heading (st : List AnalysisSection × Option AnalysisSection)
    (line : String) (h : jsStartsWith line "##" = true) :
    processLine st line = (st.1 ++ st.2.toList, some ⟨stripHeading line, "", []⟩) := by
  rw [processLine, if_pos h]

theorem processLine_skip (secs : List AnalysisSection) (line : String)
    (h : jsStartsWith line "##" = false) :
    processLine (secs, none) line = (secs, none) := by
  rw [processLine, if_neg (by simp [h])]

theorem processLine_metric (secs : List AnalysisSection) (sec : AnalysisSection)
    (line : String) (hh : jsStartsWith line "##" = false)
    (hm : isMetricLine line = true) :
    processLine (secs, some sec) line =
      (secs, some ⟨sec.title, sec.content, sec.metrics ++ [metricOfLine line]⟩) := by
  rw [processLine, if_neg (by simp [hh])]
  simp [hm]

theorem processLine_body (secs : List AnalysisSection) (sec : AnalysisSection)
    (line : String) (hh : jsStartsWith line "##" = false)
    (hm : isMetricLine line = false) :
    processLine (secs, some sec) line =
      (secs, some ⟨sec.title, sec.content ++ line ++ "<br>", sec.metrics⟩) := by
  rw [processLine, if_neg (by simp [hh])]
  simp [hm]

theorem foldl_processLine_closed (lines : List String)
    (secs : List AnalysisSection)
    (h : lines.all (fun l => ! jsStartsWith l "##") = true) :
    lines.foldl processLine (secs, none) = (secs, none) := by
  induction lines with
  | nil => rfl
  | cons l ls ih =>
    simp only [List.all_cons, Bool.and_eq_true, Bool.not_eq_true'] at h
    rw [List.foldl_cons, processLine_skip _ _ h.1]
    exact ih (by simpa using h.2)

theorem foldl_processLine_open (lines : List String)
    (secs : List AnalysisSection) (t c : String) (m : List SectionMetric)
    (h : lines.all (fun l => ! jsStartsWith l "##") = true) :
    lines.foldl processLine (secs, some ⟨t, c, m⟩) =
      (secs, some ⟨t,
        c ++ joinFrags ((lines.filter (fun l => ! isMetricLine l)).map
          (fun l => l ++ "<br>")),
        m ++ (lines.filter (fun l => isMetricLine l)).map metricOfLine⟩) := by
  induction lines generalizing c m with
  | nil => simp [joinFrags]
  | cons l ls ih =>
    simp only [List.all_cons, Bool.and_eq_true, Bool.not_eq_true'] at h
    by_cases hm : isMetricLine l = true
    · rw [List.foldl_cons, processLine_metric _ _ _ h.1 hm,
        ih _ _ (by simpa using h.2)]
      simp [List.filter_cons, hm]
    · have hm' : isMetricLine l = false := Bool.of_not_eq_true hm
      rw [List.foldl_cons, processLine_body _ _ _ h.1 hm',
        ih _ _ (by simpa using h.2)]
      simp [List.filter_cons, hm', joinFrags, String.append_assoc]

theorem foldl_processLine_isSome (lines : List String)
    (secs : List AnalysisSection) (sec : AnalysisSection) :
    ((lines.foldl processLine (secs, some sec)).2).isSome = true := by
  induction lines generalizing secs sec with
  | nil => rfl
  | cons l ls ih =>
    by_cases hl : jsStartsWith l "##" = true
    · rw [List.foldl_cons, processLine_heading _ _ hl]; exact ih _ _
    · have hl' : jsStartsWith l "##" = false := Bool.of_not_eq_true hl
      by_cases hm : isMetricLine l = true
      · rw [List.foldl_cons, processLine_metric _ _ _ hl' hm]; exact ih _ _
      · rw [List.foldl_cons,
          processLine_body _ _ _ hl' (Bool.of_not_eq_true hm)]
        exact ih _ _

theorem foldl_processLine_isSome_of_any (lines : List String)
    (secs : List AnalysisSection) (cur : Option AnalysisSection)
    (h : lines.any (fun l => jsStartsWith l "##") = true) :
    ((lines.foldl processLine (secs, cur)).2).isSome = true := by
  induction lines generalizing secs cur with
  | nil => simp at h
  | cons l ls ih =>
    by_cases hl : jsStartsWith l "##" = true
    · rw [List.foldl_cons, processLine_heading _ _ hl]
      exact foldl_processLine_isSome _ _ _
    · have h' : ls.any (fun l => jsStartsWith l "##") = true := by
        simp only [List.any_cons, Bool.or_eq_true] at h
        exact h.resolve_left hl
      have hl' : jsStartsWith l "##" = false := Bool.of_not_eq_true hl
      cases cur with
      | none => rw [List.foldl_cons, processLine_skip _ _ hl']; exact ih _ _ h'
      | some sec =>
        by_cases hm : isMetricLine l = true
        · rw [List.foldl_cons, processLine_metric _ _ _ hl' hm]; exact ih _ _ h'
        · rw [List.foldl_cons,
            processLine_body _ _ _ hl' (Bool.of_not_eq_true hm)]
          exact ih _ _ h'

theorem isEmpty_append_toList_of_isSome (secs : List AnalysisSection)
    {cur : Option AnalysisSection} (h : cur.isSome = true) :
    (secs ++ cur.toList).isEmpty = false := by
  cases cur with
  | none => simp at h
  | some sec => simp

theorem titles_foldl_processLine (lines : List String)
    (secs : List AnalysisSection) (cur : Option AnalysisSection) :
    (((lines.foldl processLine (secs, cur)).1 ++
        ((lines.foldl processLine (secs, cur)).2).toList).map
      (fun s => s.title)) =
    ((secs ++ cur.toList).map (fun s => s.title)) ++
      ((lines.filter (fun l => jsStartsWith l "##")).map stripHeading) := by
  induction lines generalizing secs cur with
  | nil => simp
  | cons l ls ih =>
    by_cases hl : jsStartsWith l "##" = true
    · rw [List.foldl_cons, processLine_heading _ _ hl, ih]
      simp [List.filter_cons, hl]
    · have hl' : jsStartsWith l "##" = false := Bool.of_not_eq_true hl
      cases cur with
      | none =>
        rw [List.foldl_cons, processLine_skip _ _ hl', ih]
        simp [List.filter_cons, hl']
      | some sec =>
        by_cases hm : isMetricLine l = true
        · rw [List.foldl_cons, processLine_metric _ _ _ hl' hm, ih]
          simp [List.filter_cons, hl']
        · rw [List.foldl_cons,
            processLine_body _ _ _ hl' (Bool.of_not_eq_true hm), ih]
          simp [List.filter_cons, hl']

/-- C4: a document in which no line starts with the `##` heading marker
yields exactly one synthetic section whose title is the fixed fallback label
`分析結果` ("Analysis Result"), whose content is the entire document text
(newlines rendered as `<br>`), and which has no metrics. -/
theorem parseAnalysisSections_no_heading (text : String)
    (h : (jsSplit text '\n').all (fun l => ! jsStartsWith l "##") = true) :
    parseAnalysisSections text =
      [⟨"分析結果", String.intercalate "<br>" (jsSplit text '\n'), []⟩] := by
  unfold parseAnalysisSections parseSectionsLines
  rw [foldl_processLine_closed _ _ h]
  rfl

/-- Witness for `parseAnalysisSections_no_heading` on a concrete two-line
document without heading markers. -/
theorem parseAnalysisSections_no_heading_witness :
    ((jsSplit "Market calm\nNo change" '\n').all
      (fun l => ! jsStartsWith l "##") = true) ∧
    parseAnalysisSections "Market calm\nNo change" =
      [⟨"分析結果", "Market calm<br>No change", []⟩] := by
  refine ⟨by decide, ?_⟩
  have h := parseAnalysisSections_no_heading "Market calm\nNo change" (by decide)
  have hs : String.intercalate "<br>" (jsSplit "Market calm\nNo change" '\n') =
      "Market calm<br>No change" := by decide
  rw [hs] at h
  exact h

/-- C5 (amended): section titles appear in source order, once per `##` line,
without re-ordering or de-duplication; and inside an open section every line
containing both `$` and `:` is captured as an ad-hoc metric — label the
trimmed text left of the first `:`, value the trimmed text between the first
and the second `:` (not everything right of the separator) — and removed
from the body, while every other line is appended to the body followed by a
`<br>` line break. -/
theorem parseAnalysisSections_section_lines :
    (∀ lines : List String,
      lines.any (fun l => jsStartsWith l "##") = true →
      (parseSectionsLines lines).map (fun s => s.title) =
        (lines.filter (fun l => jsStartsWith l "##")).map stripHeading) ∧
    (∀ (hd : String) (rest : List String), jsStartsWith hd "##" = true →
      rest.all (fun l => ! jsStartsWith l "##") = true →
      parseSectionsLines (hd :: rest) =
        [⟨stripHeading hd,
          joinFrags ((rest.filter (fun l => ! isMetricLine l)).map
            (fun l => l ++ "<br>")),
          (rest.filter (fun l => isMetricLine l)).map metricOfLine⟩]) := by
  constructor
  · intro lines hany
    unfold parseSectionsLines finalizeSecs
    have hne := isEmpty_append_toList_of_isSome
      ((lines.foldl processLine ([], none)).1)
      (foldl_processLine_isSome_of_any lines [] none hany)
    rw [if_neg (by simp [hne])]
    have := titles_foldl_processLine lines [] none
    simpa using this
  · intro hd rest hhd hrest
    unfold parseSectionsLines finalizeSecs
    rw [List.foldl_cons, processLine, if_pos hhd]
    rw [foldl_processLine_open rest _ _ _ _ hrest]
    simp

/-- Witness for `parseAnalysisSections_section_lines` on a concrete document:
a heading, a two-colon metric line and a body line. -/
theorem parseAnalysisSections_section_lines_witness :
    (jsStartsWith "## Overview" "##" = true) ∧
    parseSectionsLines ["## Overview", "Price: $45: x", "note"] =
      [⟨"Overview", "note<br>", [⟨"Price", "$45"⟩]⟩] := by
  refine ⟨by decide, ?_⟩
  have h := parseAnalysisSections_section_lines.2 "## Overview"
    ["Price: $45: x", "note"] (by decide) (by decide)
  rw [h]
  decide

/-- C5 (counterexample): on the section line `"Time: $45: note"` the code
captures the metric value `"$45"` — the text between the first and the second
`:` — whereas the trimmed text right of the separator is `"$45: note"`. -/
theorem parseAnalysisSections_metric_value_counterexample :
    parseSectionsLines ["## Summary", "Time: $45: note"] =
      [⟨"Summary", "", [⟨"Time", "$45"⟩]⟩] ∧
    specMetricValue "Time: $45: note" = "$45: note" ∧
    ("$45" : String) ≠ "$45: note" := by
  exact ⟨by decide, by decide, by decide⟩

/-- C10: when a document has at least one heading-marker line, every line
before the first heading is silently discarded — the parse of the whole
document equals the parse of the line list with the heading-free prefix
removed, for an arbitrary such prefix, so the discarded lines appear in no
section's title, content, or metrics. -/
theorem parseAnalysisSections_discards_preamble (text : String)
    (pre rest : List String)
    (hsplit : jsSplit text '\n' = pre ++ rest)
    (hpre : pre.all (fun l => ! jsStartsWith l "##") = true)
    (hrest : rest.any (fun l => jsStartsWith l "##") = true) :
    parseAnalysisSections text = parseSectionsLines rest := by
  unfold parseAnalysisSections parseSectionsLines
  rw [hsplit, List.foldl_append, foldl_processLine_closed pre [] hpre]
  unfold finalizeSecs
  have hne := isEmpty_append_toList_of_isSome
    ((rest.foldl processLine ([], none)).1)
    (foldl_processLine_isSome_of_any rest [] none hrest)
  rw [if_neg (by simp [hne]), if_neg (by simp [hne])]

/-- Witness for `parseAnalysisSections_discards_preamble` on
`"intro\n## Head\nbody"`: the preamble line `intro` leaves no trace. -/
theorem parseAnalysisSections_discards_preamble_witness :
    (jsSplit "intro\n## Head\nbody" '\n' = ["intro"] ++ ["## Head", "body"]) ∧
    parseAnalysisSections "intro\n## Head\nbody" =
      parseSectionsLines ["## Head", "body"] ∧
    parseSectionsLines ["## Head", "body"] = [⟨"Head", "body<br>", []⟩] := by
  refine ⟨by decide, ?_, by decide⟩
  exact parseAnalysisSections_discards_preamble "intro\n## Head\nbody"
    ["intro"] ["## Head", "body"] (by decide) (by decide) (by decide)

/-- C9 (code bug): the constructor configures 30000 ms and `init` starts the
timers; changing the frequency to 60 s via `saveSettings` leaves the old
30000 ms and 60000 ms timers running and merely adds 60000 ms and 120000 ms
timers, so ticks at the previously configured cadence keep firing — the
reschedule does not replace the timer as the spec requires. -/
theorem saveSettings_leaves_old_timers :
    (saveSettings 60 (startRealTimeUpdates ⟨30000, []⟩)).timers =
      [30000, 60000, 60000, 120000] ∧
    30000 ∈ (saveSettings 60 (startRealTimeUpdates ⟨30000, []⟩)).timers ∧
    (saveSettings 60 (startRealTimeUpdates ⟨30000, []⟩)).updateInterval =
      60000 := by
  exact ⟨rfl, by decide, rfl⟩

end CryptoDashboard

namespace MobileCryptoApp

open JsStr

/-- C1: the price fetch tries the primary endpoint first and consults the
single fallback exactly when the primary response is non-success or a
transport failure; the fallback body `{[id]: {usd, usd_24h_change}}` is
normalized into the primary-tier fields `price_usd`/`price_change_24h`;
when both tiers fail the result is the failure value `none` (JS `null`)
rather than an exception; and a primary HTTP 500 with fallback
`{bitcoin: {usd: 50000, usd_24h_change: 2.5}}` yields price 50000 and
change 2.5 from the fallback. -/
theorem fetchCryptoPrice_two_tier :
    (∀ (p : JsResult PriceData),
      fetchAttempts p =
        if isOk p then [Endpoint.primaryEp]
        else [Endpoint.primaryEp, Endpoint.fallbackEp]) ∧
    (∀ (body : PriceData) (f : JsResult CGMap) (id : String),
      fetchCryptoPrice (.response true body) f id = some body) ∧
    (∀ (b : PriceData) (m : CGMap) (id : String),
      fetchCryptoPrice (.response false b) (.response true m) id =
        some ⟨(jsLookup m id).bind CGEntry.usd,
              (jsLookup m id).bind CGEntry.usd_24h_change⟩) ∧
    (∀ (m : CGMap) (id : String),
      fetchCryptoPrice .throwTransport (.response true m) id =
        some ⟨(jsLookup m id).bind CGEntry.usd,
              (jsLookup m id).bind CGEntry.usd_24h_change⟩) ∧
    (∀ (b : PriceData) (m2 : CGMap) (id : String),
      fetchCryptoPrice (.response false b) (.response false m2) id = none ∧
      fetchCryptoPrice (.response false b) .throwTransport id = none ∧
      fetchCryptoPrice .throwTransport (.response false m2) id = none ∧
      fetchCryptoPrice .throwTransport .throwTransport id = none) ∧
    (fetchCryptoPrice (.response false ⟨none, none⟩)
        (.response true [("bitcoin", ⟨some 50000, some (5 / 2)⟩)]) "bitcoin" =
      some ⟨some 50000, some (5 / 2)⟩ ∧
     fetchAttempts (.response false ⟨none, none⟩) =
      [Endpoint.primaryEp, Endpoint.fallbackEp]) := by
  refine ⟨?_, ?_, ?_, ?_, ?_, ?_, ?_⟩
  · intro p
    cases p with
    | throwTransport => rfl
    | response ok body => cases ok <;> rfl
  · intro body f id; rfl
  · intro b m id; rfl
  · intro m id; rfl
  · intro b m2 id; exact ⟨rfl, rfl, rfl, rfl⟩
  · rfl
  · rfl

/-- C8 (amended): `saveAlert` rejects an alert whose symbol or condition is
missing or whose threshold parses to `NaN` or equals `0` — any *nonzero*
threshold, including a negative one, is accepted; a rejected add leaves the
stored list unchanged; an add with symbol, condition and nonzero threshold
appends the alert to the list (so it appears in the listing); and a
threshold of `0` is rejected. -/
theorem saveAlert_validation (now : Nat) (crypto condition : String)
    (price : Option ℚ) (alerts : List MobileAlert) :
    ((saveAlert now crypto condition price alerts).1 =
        SaveResult.validationError →
      (saveAlert now crypto condition price alerts).2 = alerts) ∧
    (∀ q : ℚ, price = some q → crypto ≠ "" → condition ≠ "" → q ≠ 0 →
      saveAlert now crypto condition price alerts =
        (SaveResult.saved,
          alerts ++ [⟨now, crypto, condition, q, now, true⟩]) ∧
      (⟨now, crypto, condition, q, now, true⟩ : MobileAlert) ∈
        (saveAlert now crypto condition price alerts).2) ∧
    saveAlert now crypto condition (some 0) alerts =
      (SaveResult.validationError, alerts) := by
  refine ⟨?_, ?_, ?_⟩
  · intro h
    cases price with
    | none => rfl
    | some q =>
      rw [saveAlert] at h ⊢
      by_cases hg : (crypto == "" || condition == "" || q == 0) = true
      · rw [if_pos hg]
      · rw [if_neg hg] at h
        simp at h
  · intro q hq h1 h2 h3
    subst hq
    have hg : (crypto == "" || condition == "" || q == 0) = false := by
      simp [h1, h2, h3]
    rw [saveAlert, if_neg (by simp [hg])]
    simp
  · rw [saveAlert]
    simp

/-- Witness for `saveAlert_validation`: the spec's example — threshold 50000
is saved and listed, threshold 0 is rejected. -/
theorem saveAlert_validation_witness :
    (saveAlert 1 "bitcoin" "above" (some 50000) [] =
      (SaveResult.saved, [⟨1, "bitcoin", "above", 50000, 1, true⟩]) ∧
     (⟨1, "bitcoin", "above", 50000, 1, true⟩ : MobileAlert) ∈
      (saveAlert 1 "bitcoin" "above" (some 50000) []).2) ∧
    saveAlert 1 "bitcoin" "above" (some 0) [] =
      (SaveResult.validationError, []) := by
  refine ⟨?_, (saveAlert_validation 1 "bitcoin" "above" (some 0) []).2.2⟩
  have h := (saveAlert_validation 1 "bitcoin" "above" (some 50000) []).2.1
    50000 rfl (by decide) (by decide) (by decide)
  simpa using h

/-- C8 (counterexample): the threshold `-100` is not a positive number, yet
`saveAlert` accepts it and appends the alert — the guard only tests
JavaScript falsiness, not positivity. -/
theorem saveAlert_negative_counterexample :
    saveAlert 0 "bitcoin" "above" (some (-100)) [] =
      (SaveResult.saved, [⟨0, "bitcoin", "above", -100, 0, true⟩]) ∧
    ¬(0 < (-100 : ℚ)) := by
  exact ⟨by decide, by decide⟩

end MobileCryptoApp

namespace CryptoNewsApp

open JsStr

/-- C6: `categorizeNews` returns the category of the first keyword set (in
the fixed priority order of `categoryRules`) containing a case-insensitive
substring match in title + summary, and `general` when no set matches. -/
theorem categorizeNews_priority (title summary : String) :
    categorizeNews title summary =
      ((categoryRules.find? (fun r =>
        r.1.any (fun w =>
          jsIncludes (jsToLower (title ++ " " ++ summary)) w))).map
        (fun r => r.2)).getD "general" := by
  cases h1 : jsIncludes (jsToLower (title ++ " " ++ summary)) "bitcoin" <;>
  cases h2 : jsIncludes (jsToLower (title ++ " " ++ summary)) "btc" <;>
  cases h3 : jsIncludes (jsToLower (title ++ " " ++ summary)) "ethereum" <;>
  cases h4 : jsIncludes (jsToLower (title ++ " " ++ summary)) "eth" <;>
  cases h5 : jsIncludes (jsToLower (title ++ " " ++ summary)) "defi" <;>
  cases h6 : jsIncludes (jsToLower (title ++ " " ++ summary)) "decentralized" <;>
    simp [categorizeNews, categoryRules, List.find?, h1, h2, h3, h4, h5, h6] <;>
  cases h7 : jsIncludes (jsToLower (title ++ " " ++ summary)) "regulation" <;>
  cases h8 : jsIncludes (jsToLower (title ++ " " ++ summary)) "regulatory" <;>
  cases h9 : jsIncludes (jsToLower (title ++ " " ++ summary)) "規制" <;>
  cases ha : jsIncludes (jsToLower (title ++ " " ++ summary)) "blockchain" <;>
  cases hb : jsIncludes (jsToLower (title ++ " " ++ summary)) "technology" <;>
  cases hc : jsIncludes (jsToLower (title ++ " " ++ summary)) "tech" <;>
    simp [List.find?, h7, h8, h9, ha, hb, hc]

theorem jsIncludes_eq_decide_countOcc (text w : String) :
    jsIncludes text w = decide (0 < countOcc w.data text.data) := by
  cases h : jsIncludes text w with
  | true =>
    have := (containsList_iff_countOcc_pos w.data text.data).mp h
    simp [this]
  | false =>
    have : ¬ (0 < countOcc w.data text.data) := fun hc => by
      have := (containsList_iff_countOcc_pos w.data text.data).mpr hc
      rw [jsIncludes] at h
      simp [this] at h
    simp [this]

theorem filter_includes_eq_presenceCount (ws : List String) (text : String) :
    (ws.filter (fun w => jsIncludes text w)).length = presenceCount ws text := by
  rw [presenceCount, List.countP_eq_length_filter]
  have hfun : (fun w => jsIncludes text w) =
      (fun w => decide (0 < countOcc w.data text.data)) :=
    funext (fun w => jsIncludes_eq_decide_countOcc text w)
  rw [hfun]

/-- C7 (amended): news sentiment compares the number of positive-list
keywords *present* in the lower-cased title + summary with the number of
negative-list keywords present (each keyword counted at most once, however
often it occurs); strictly more positive keywords gives `positive`, strictly
more negative gives `negative`, a tie — including 0–0 — gives `neutral`.
The function is pure, so classifying the same pair twice is trivially
identical. -/
theorem analyzeSentiment_presence (title summary : String) :
    analyzeSentiment title summary =
      (if presenceCount positiveWords (jsToLower (title ++ " " ++ summary)) >
          presenceCount negativeWords (jsToLower (title ++ " " ++ summary)) then
        "positive"
      else if presenceCount negativeWords (jsToLower (title ++ " " ++ summary)) >
          presenceCount positiveWords (jsToLower (title ++ " " ++ summary)) then
        "negative"
      else "neutral") := by
  rw [analyzeSentiment,
    filter_includes_eq_presenceCount positiveWords
      (jsToLower (title ++ " " ++ summary)),
    filter_includes_eq_presenceCount negativeWords
      (jsToLower (title ++ " " ++ summary))]

/-- C7 (counterexample): on title `"surge surge"` and summary
`"crash dump"` the occurrence counts are tied 2–2 (two occurrences of
`surge` against one each of `crash` and `dump`), so the claim's
occurrence-counting rule yields `neutral`; the code counts distinct
keywords present (1 positive vs 2 negative) and returns `negative`. -/
theorem analyzeSentiment_counterexample :
    analyzeSentiment "surge surge" "crash dump" = "negative" ∧
    occSentiment "surge surge" "crash dump" = "neutral" ∧
    ("negative" : String) ≠ "neutral" := by
  exact ⟨by decide, by decide, by decide⟩

end CryptoNewsApp
